import Mathlib

/-!
Verification of the tool-augmented chat backend (`backend/app.py`).

The development shallowly embeds the three pieces of non-trivial logic of the
repository:

* the FAQ-document sectionizer `parse_faq_pdf_content_into_dictionary`
  (regex heading scan + dictionary build),
* the two-pass FAQ retriever `get_answers_from_pdf`,
* the two-phase tool-calling orchestrator `chat` (the `/chat` route).

Python strings are embedded as `List Char`, dictionaries as association lists
in insertion order (Python dicts iterate in insertion order; an assignment to
an existing key updates the value in place), and the remote model / tool
collaborators as explicit oracle inputs of the `chat` step.
-/

set_option maxHeartbeats 1000000

namespace App

/-! ## Character classes and Python string primitives -/

/-- Python `\s` (ASCII part): the whitespace characters recognized by `re` and
by `str.strip` / `str.split`. -/
def isSpaceChar (c : Char) : Bool :=
  c == ' ' || c == '\t' || c == '\n' || c == '\r' || c == '\x0b' || c == '\x0c'

/-- ASCII letter, i.e. the `A-Za-z` part of the heading regex character class. -/
def isLetterChar (c : Char) : Bool :=
  (decide ('A' ≤ c) && decide (c ≤ 'Z')) || (decide ('a' ≤ c) && decide (c ≤ 'z'))

/-- A character matched by the class `[A-Za-z\s]` of the heading pattern. -/
def isHeadingChar (c : Char) : Bool :=
  isLetterChar c || isSpaceChar c

/-- Python `str.lower()` (ASCII). -/
def toLowerL (s : List Char) : List Char :=
  s.map Char.toLower

/-- Python `str.strip()`: remove leading and trailing whitespace. -/
def stripL (s : List Char) : List Char :=
  ((s.dropWhile isSpaceChar).reverse.dropWhile isSpaceChar).reverse

/-- Python `re.sub(r"\s+", " ", s)`: collapse every whitespace run to a single
space. -/
def collapseWs : List Char → List Char
  | [] => []
  | [c] => if isSpaceChar c then [' '] else [c]
  | c :: d :: rest =>
    if isSpaceChar c then
      if isSpaceChar d then collapseWs (d :: rest)
      else ' ' :: collapseWs (d :: rest)
    else c :: collapseWs (d :: rest)

/-- Python `s[a:b]` on a string (for `a ≤ b`; both clamp at the length). -/
def slice (s : List Char) (a b : Nat) : List Char :=
  (s.drop a).take (b - a)

/-- Python `str.split()` with no separator: split on whitespace runs and drop
empty pieces.  The accumulator holds the current word reversed. -/
def splitWsAux : List Char → List Char → List (List Char)
  | [], acc => if acc = [] then [] else [acc.reverse]
  | c :: rest, acc =>
    if isSpaceChar c then
      if acc = [] then splitWsAux rest []
      else acc.reverse :: splitWsAux rest []
    else splitWsAux rest (c :: acc)

def splitWs (s : List Char) : List (List Char) :=
  splitWsAux s []

/-! ## The document sectionizer (`parse_faq_pdf_content_into_dictionary`)

The heading pattern is `re.compile(r"([A-Za-z\s]+?):", re.MULTILINE)`.  A match
starting at position `i` is the shortest non-empty run of `[A-Za-z\s]`
characters followed by a colon; `finditer` scans positions left to right and
resumes after the end of each match (non-overlapping matches).
-/

/-- Lazy matching of `[A-Za-z\s]+?:` at the head of the list: returns the
number `k ≥ 1` of class characters consumed before the first colon, i.e. the
length of capture group 1.  The full match has length `k + 1` (group plus the
colon).  Fails if a non-class, non-colon character appears first, or the list
ends. -/
def headRun : List Char → Option Nat
  | [] => none
  | c :: rest =>
    if isHeadingChar c then
      match rest with
      | ':' :: _ => some 1
      | _ => (headRun rest).map (· + 1)
    else none

/-- Normalization applied to each heading as it is recorded:
`match.group(1).strip().lower()`. -/
def normHeading (g : List Char) : List Char :=
  toLowerL (stripL g)

/-- One step of `finditer`: scan for matches, fuel-bounded for structural
recursion.  The scan consumes at least one character per step, so fuel equal
to the length of the scanned text never runs out. -/
def findHeadingsF : Nat → List Char → Nat → List (List Char × Nat × Nat)
  | 0, _, _ => []
  | _ + 1, [], _ => []
  | fuel + 1, c :: rest, pos =>
    match headRun (c :: rest) with
    | some k =>
      (normHeading ((c :: rest).take k), pos, pos + k + 1)
        :: findHeadingsF fuel (rest.drop k) (pos + k + 1)
    | none => findHeadingsF fuel rest (pos + 1)

/-- Embedding of `headings_with_spans`: every regex match of the heading pattern, as
(normalized group 1 text, full-match start, full-match end), in order of
appearance. -/
def findHeadings (text : List Char) (pos : Nat) : List (List Char × Nat × Nat) :=
  findHeadingsF text.length text pos

/-- Content normalization: the code strips the raw slice, collapses whitespace
runs to single spaces and strips again. -/
def cleanContent (s : List Char) : List Char :=
  stripL (collapseWs (stripL s))

/-- Python dict assignment `d[k] = v`: update the value in place if the key is
present, otherwise append the pair at the end (insertion order preserved). -/
def dictInsert : List (List Char × List Char) → List Char → List Char → List (List Char × List Char)
  | [], k, v => [(k, v)]
  | e :: rest, k, v => if e.1 = k then (k, v) :: rest else e :: dictInsert rest k v

/-- Python `del d[k]` (keys are unique in a dict, so filtering is the same). -/
def dictDelete (d : List (List Char × List Char)) (k : List Char) : List (List Char × List Char) :=
  d.filter (fun e => decide (e.1 ≠ k))

/-- The artificial end-of-document marker heading. -/
def ENDMARK : List Char := "END_OF_DOCUMENT".toList

/-- The denylisted extraction-artifact headings, deleted after the build. -/
def denyA : List Char := "faq\x27s".toList
def denyB : List Char := "faqs".toList

/-- The `for i in range(len(headings_with_spans) - 1)` loop: for each adjacent
pair of recorded headings, store the cleaned text strictly between the end of
the current full match and the start of the next one, provided both the
normalized heading and the cleaned content are non-empty. -/
def buildDict (text : List Char) : List (List Char × Nat × Nat) → List (List Char × List Char) → List (List Char × List Char)
  | h1 :: h2 :: rest, acc =>
    buildDict text (h2 :: rest)
      (if h1.1 ≠ [] ∧ cleanContent (slice text h1.2.2 h2.2.1) ≠ [] then
        dictInsert acc h1.1 (cleanContent (slice text h1.2.2 h2.2.1))
      else acc)
  | _, acc => acc

/-- Embedding of `parse_faq_pdf_content_into_dictionary`, as a function from the raw
extracted text to the `FAQ_DATA` mapping. -/
def parse_faq_pdf_content_into_dictionary (text : List Char) : List (List Char × List Char) :=
  if text = [] then []
  else
    let hs := findHeadings text 0
    let hs2 := if hs = [] then [] else hs ++ [(ENDMARK, text.length, text.length)]
    dictDelete (dictDelete (buildDict text hs2 []) denyA) denyB

/-! ## The FAQ retriever (`get_answers_from_pdf`) -/

/-- The result dictionary shape returned by `get_answers_from_pdf`. -/
structure PdfResult where
  status : String
  answer : List Char
  source : String
  deriving DecidableEq

/-- One iteration of the pass-1 loop, folding over
`(best_match_key, max_match_len)`.  Python `in` on strings is the contiguous
substring test, embedded as `List.IsInfix`. -/
def pass1Step (queryLower : List Char) (acc : Option (List Char) × Nat) (e : List Char × List Char) :
    Option (List Char) × Nat :=
  if queryLower <:+: e.1 then
    if queryLower.length > acc.2 then (some e.1, queryLower.length) else acc
  else if e.1 <:+: queryLower then
    if e.1.length > acc.2 then (some e.1, e.1.length) else acc
  else acc

/-- Python `FAQ_DATA[k]` for a key produced by the loop itself (always
present; the default is never reached). -/
def dictGet (d : List (List Char × List Char)) (k : List Char) : List Char :=
  (List.lookup k d).getD []

def faqErrorAnswer : List Char :=
  "The FAQ document could not be loaded or parsed, or is empty.".toList

def faqNotFoundAnswer : List Char :=
  ("I couldn\x27t find a direct answer to your question in the FAQ. " ++
    "Please try rephrasing or contact support.").toList

/-- Embedding of `get_answers_from_pdf(query)` over an explicit `FAQ_DATA` association list
(the dictionary in iteration order).  `found_answer` is embedded as a
`List Char` where `[]` stands for Python's falsy `None`/`""` (the two are
indistinguishable to every later check in the function). -/
def get_answers_from_pdf (faqData : List (List Char × List Char)) (query : List Char) : PdfResult :=
  if faqData = [] then ⟨"error", faqErrorAnswer, "FAQ PDF"⟩
  else
    let queryLower := toLowerL query
    let best := (faqData.foldl (pass1Step queryLower) (none, 0)).1
    let found1 : List Char :=
      match best with
      | some k => dictGet faqData k
      | none => []
    let found2 : List Char :=
      if found1 = [] then
        let keywords := splitWs queryLower
        match faqData.find? (fun e =>
            keywords.any (fun kw => kw.length > 4 && decide (kw <:+: toLowerL e.2))) with
        | some e => e.2
        | none => []
      else found1
    if found2 ≠ [] then ⟨"success", found2, "FAQ PDF"⟩
    else ⟨"not_found", faqNotFoundAnswer, "FAQ PDF"⟩

/-- The match length the pass-1 loop associates with an entry's heading key:
the length of the contained string — the query when the query is contained in
the key, the key when the key is contained in the query — and `0` when
neither contains the other (no candidate). -/
def matchLen (queryLower key : List Char) : Nat :=
  if queryLower <:+: key then queryLower.length
  else if key <:+: queryLower then key.length
  else 0

/-! ## The `/chat` orchestrator

The remote model and the tool implementations are external collaborators; the
`chat` step takes their behavior as an explicit environment.  JSON payloads
appearing inside turns (tool arguments and tool results) are embedded as a
generic JSON value type.
-/

/-- A JSON value (tool arguments and structured tool results). -/
inductive JVal where
  | null
  | bool (b : Bool)
  | num (n : Int)
  | str (s : String)
  | arr (elems : List JVal)
  | obj (fields : List (String × JVal))

/-- A `functionCall` part payload: `{"name": ..., "args": {...}}`. -/
structure FunctionCall where
  name : String
  args : List (String × JVal)

/-- One content part of a model reply: `{"text": ...}` and/or
`{"functionCall": ...}`; either field may be absent. -/
structure RPart where
  text : Option String
  functionCall : Option FunctionCall

/-- The `content` object of a candidate; its `parts` field may be absent. -/
structure RContent where
  parts : Option (List RPart)

/-- One candidate of a model reply; its `content` field may be absent. -/
structure RCandidate where
  content : Option RContent

/-- A decoded model response body. -/
structure Reply where
  candidates : List RCandidate

/-- Outcome of one `requests.post` + `response.json()` round trip:
`requests.exceptions.RequestException` (transport), `json.JSONDecodeError`
(decode), or a decoded reply. -/
inductive CallResult where
  | transportError
  | decodeError
  | ok (r : Reply)

/-- Outcome of executing `tool_function(**tool_args)` for a registered tool:
the Python call can raise (e.g. a `TypeError` on argument binding), which the
route's generic `except Exception` handler catches; otherwise it returns a
structured result. -/
inductive ToolRun where
  | raises
  | returns (v : JVal)

/-- The external collaborators of one `chat` request: the two model calls and
the registered-tool invocation. -/
structure Env where
  firstCall : CallResult
  secondCall : CallResult
  toolRun : ToolRun

/-- One entry of `conversation_history`.  The four shapes appended by the
code: `{"role": "user", "parts": [{"text": m}]}`,
`{"role": "model", "parts": [{"text": t}]}`,
`{"role": "model", "parts": [{"functionCall": fc}]}` and
`{"role": "function", "parts": [{"functionResponse": {"name": n, "response": r}}]}`. -/
inductive Turn where
  | user (text : String)
  | modelText (text : String)
  | modelCall (fc : FunctionCall)
  | toolResult (name : String) (response : JVal)

/-- The HTTP response of the route: `jsonify({"response": text})` with status
200, or `jsonify({"error": message})` with an explicit status code. -/
inductive HttpResponse where
  | ok (text : String)
  | err (message : String) (status : Nat)
  deriving DecidableEq

/-- The observable outcome of one `chat` request: the conversation log after
the request, the HTTP response, the histories transmitted to the model in the
first and (when reached) second call, and whether a second call was made. -/
structure ChatResult where
  log : List Turn
  response : HttpResponse
  sentFirst : Option (List Turn)
  sentSecond : Option (List Turn)
  secondCallMade : Bool

def MAX_HISTORY_TURNS : Nat := 5

/-- Python slice `conversation_history[-MAX_HISTORY_TURNS * 2 :]`. -/
def window (log : List Turn) : List Turn :=
  log.drop (log.length - MAX_HISTORY_TURNS * 2)

/-- The keys of `AVAILABLE_TOOLS`. -/
def toolNames : List String :=
  ["get_product_details", "get_jsonplaceholder_posts", "get_answers_from_pdf"]

/-- The parts list guarded by
`data and data.get("candidates") and data["candidates"][0].get("content") and
 ...["content"].get("parts")`; empty when any link of the chain is absent or
falsy. -/
def partsOf (r : Reply) : List RPart :=
  match r.candidates with
  | [] => []
  | cand :: _ =>
    match cand.content with
    | none => []
    | some ct =>
      match ct.parts with
      | none => []
      | some ps => ps

/-- Python `parts[0]` when the first-call truthiness guard passes. -/
def firstPartOf (r : Reply) : Option RPart :=
  (partsOf r).head?

/-- Embedding of `for part in parts: if part.get("text"): llm_text += part["text"]`. -/
def concatParts (parts : List RPart) : String :=
  parts.foldl
    (fun acc p =>
      match p.text with
      | some t => if t = "" then acc else acc ++ t
      | none => acc)
    ""

/-- Text accumulated from the second call's reply: first candidate's parts if
the `candidates`/`content`/`parts` chain is truthy, empty otherwise. -/
def secondText (r : Reply) : String :=
  match r.candidates with
  | [] => ""
  | cand :: _ =>
    match cand.content with
    | none => ""
    | some ct =>
      match ct.parts with
      | none => ""
      | some ps => concatParts ps

/-- The direct-text branch of the first call: if the first part's `text`
field holds a string, use it alone; otherwise concatenate the texts of all
parts (the `elif isinstance(parts, list)` branch, always taken there). -/
def directText (parts : List RPart) : String :=
  match parts with
  | [] => ""
  | p :: _ =>
    match p.text with
    | some s => s
    | none => concatParts parts

def noMessageError : String := "No message provided"
def transportFailureMessage : String := "Failed to communicate with the AI model."
def decodeFailureMessage : String := "Invalid response from AI model."
def internalFailureMessage : String := "An internal server error occurred."
def toolApology : String :=
  "I\x27m sorry, I couldn\x27t generate a response after using the tool."
def directApology : String := "I\x27m sorry, I couldn\x27t generate a direct response."
def understandApology : String := "I\x27m sorry, I couldn\x27t understand the AI\x27s initial response."

/-- The user-facing message for an unregistered tool name:
`f"I tried to use a tool called '{tool_name}', but it's not available."`. -/
def unknownToolText (toolName : String) : String :=
  "I tried to use a tool called \x27" ++ toolName ++ "\x27, but it\x27s not available."

/-- The `/chat` route body, from the decoded `message` field (absent or any
string) and the current `conversation_history`. -/
def chat (env : Env) (message : Option String) (log : List Turn) : ChatResult :=
  match message with
  | none => ⟨log, .err noMessageError 400, none, none, false⟩
  | some m =>
    if m = "" then ⟨log, .err noMessageError 400, none, none, false⟩
    else
      let log1 := log ++ [Turn.user m]
      let recent := window log1
      match env.firstCall with
      | .transportError => ⟨log1, .err transportFailureMessage 500, some recent, none, false⟩
      | .decodeError => ⟨log1, .err decodeFailureMessage 500, some recent, none, false⟩
      | .ok reply =>
        match firstPartOf reply with
        | some p =>
          match p.functionCall with
          | some fc =>
            if fc.name ∈ toolNames then
              match env.toolRun with
              | .raises => ⟨log1, .err internalFailureMessage 500, some recent, none, false⟩
              | .returns toolOut =>
                let log2 := log1 ++ [Turn.modelCall fc, Turn.toolResult fc.name toolOut]
                let recent2 := window log2
                match env.secondCall with
                | .transportError =>
                  ⟨log2, .err transportFailureMessage 500, some recent, some recent2, true⟩
                | .decodeError =>
                  ⟨log2, .err decodeFailureMessage 500, some recent, some recent2, true⟩
                | .ok r2 =>
                  let t := if secondText r2 = "" then toolApology else secondText r2
                  ⟨log2 ++ [Turn.modelText t], .ok t, some recent, some recent2, true⟩
            else
              let t := unknownToolText fc.name
              ⟨log1 ++ [Turn.modelText t], .ok t, some recent, none, false⟩
          | none =>
            let t := if directText (partsOf reply) = "" then directApology
              else directText (partsOf reply)
            ⟨log1 ++ [Turn.modelText t], .ok t, some recent, none, false⟩
        | none =>
          ⟨log1 ++ [Turn.modelText understandApology], .ok understandApology,
            some recent, none, false⟩

/-! ## Shared concrete environments for witnesses and counterexamples -/

/-- An inert environment: both model calls decode to an empty candidate list
and the tool returns `null`. -/
def env0 : Env := ⟨.ok ⟨[]⟩, .ok ⟨[]⟩, .returns .null⟩

/-- First reply: a `functionCall` for the registered tool
`get_answers_from_pdf`; second reply: one candidate whose single part carries
the text `"done"`. -/
def envTool : Env :=
  ⟨.ok ⟨[⟨some ⟨some [⟨none, some ⟨"get_answers_from_pdf", []⟩⟩]⟩⟩]⟩,
    .ok ⟨[⟨some ⟨some [⟨some "done", none⟩]⟩⟩]⟩,
    .returns .null⟩

/-- First reply: a `functionCall` for the registered tool; second reply has a
candidate but no text part at all. -/
def envToolNoText : Env :=
  ⟨.ok ⟨[⟨some ⟨some [⟨none, some ⟨"get_answers_from_pdf", []⟩⟩]⟩⟩]⟩,
    .ok ⟨[⟨some ⟨some [⟨none, none⟩]⟩⟩]⟩,
    .returns .null⟩

/-- First reply: a `functionCall` for an unregistered tool named `"foo"`. -/
def envUnknown : Env :=
  ⟨.ok ⟨[⟨some ⟨some [⟨none, some ⟨"foo", []⟩⟩]⟩⟩]⟩, .ok ⟨[]⟩, .returns .null⟩

/-- First reply: two plain text parts `"a"` and `"b"`, no function call. -/
def envTwoTexts : Env :=
  ⟨.ok ⟨[⟨some ⟨some [⟨some "a", none⟩, ⟨some "b", none⟩]⟩⟩]⟩, .ok ⟨[]⟩, .returns .null⟩

/-- The first model call fails at the transport level. -/
def envTransport : Env := ⟨.transportError, .ok ⟨[]⟩, .returns .null⟩

/-- The first model call returns undecodable JSON. -/
def envDecode : Env := ⟨.decodeError, .ok ⟨[]⟩, .returns .null⟩

/-! ## Orchestrator claims -/

/-- C10: a request whose body lacks a `message` field or carries the empty
string is answered with status 400 and the fixed body
`error: No message provided`, and no turn is appended to the log. -/
theorem chat_rejects_missing_message (env : Env) (message : Option String) (log : List Turn)
    (h : message = none ∨ message = some "") :
    (chat env message log).response = .err noMessageError 400 ∧
      (chat env message log).log = log := by
  rcases h with h | h <;> subst h <;> simp [chat]

/-- Witness for `chat_rejects_missing_message` at the empty message. -/
theorem chat_rejects_missing_message_witness :
    ((some "" : Option String) = none ∨ (some "" : Option String) = some "") ∧
      (chat env0 (some "") []).response = .err noMessageError 400 ∧
      (chat env0 (some "") []).log = [] :=
  ⟨Or.inr rfl, chat_rejects_missing_message env0 (some "") [] (Or.inr rfl)⟩

/-- C8: the conversation log is append-only — whatever the outcome of a
`chat` request (success, transport failure, decode failure, internal
failure), the prior log is a prefix of the resulting log. -/
theorem chat_log_append_only (env : Env) (message : Option String) (log : List Turn) :
    log <+: (chat env message log).log := by
  obtain ⟨f, s, t⟩ := env
  cases message with
  | none => simp [chat]
  | some m =>
    by_cases hm : m = ""
    · simp [chat, hm]
    · cases f with
      | transportError => simp [chat, hm, List.prefix_append]
      | decodeError => simp [chat, hm, List.prefix_append]
      | ok reply =>
        cases hp : firstPartOf reply with
        | none => simp [chat, hm, hp, List.prefix_append]
        | some p =>
          cases hfc : p.functionCall with
          | none => simp [chat, hm, hp, hfc, List.prefix_append]
          | some fc =>
            by_cases hreg : fc.name ∈ toolNames
            · cases t with
              | raises => simp [chat, hm, hp, hfc, hreg, List.prefix_append]
              | returns out =>
                cases s with
                | transportError => simp [chat, hm, hp, hfc, hreg, List.prefix_append]
                | decodeError => simp [chat, hm, hp, hfc, hreg, List.prefix_append]
                | ok r2 => simp [chat, hm, hp, hfc, hreg, List.prefix_append]
            · simp [chat, hm, hp, hfc, hreg, List.prefix_append]

/-- C4: when the model's first reply requests a tool name that is not
registered, exactly two turns are appended (the user turn and a final model
turn), no second model call is made, and the returned text embeds the
requested name in the fixed "not available" message. -/
theorem chat_unknown_tool (env : Env) (m : String) (log : List Turn) (reply : Reply)
    (p : RPart) (fc : FunctionCall)
    (hm : m ≠ "") (h1 : env.firstCall = .ok reply) (hp : firstPartOf reply = some p)
    (hfc : p.functionCall = some fc) (hreg : fc.name ∉ toolNames) :
    (chat env (some m) log).log =
        log ++ [Turn.user m, Turn.modelText (unknownToolText fc.name)] ∧
      (chat env (some m) log).response = .ok (unknownToolText fc.name) ∧
      (chat env (some m) log).secondCallMade = false ∧
      ∃ pre suf, unknownToolText fc.name = pre ++ fc.name ++ suf := by
  refine ⟨?_, ?_, ?_, "I tried to use a tool called \x27", "\x27, but it\x27s not available.", rfl⟩ <;>
    simp [chat, hm, h1, hp, hfc, hreg]

/-- Witness for `chat_unknown_tool`: the model asks for the unregistered tool
`"foo"`. -/
theorem chat_unknown_tool_witness :
    (chat envUnknown (some "hi") []).log =
        [] ++ [Turn.user "hi", Turn.modelText (unknownToolText "foo")] ∧
      (chat envUnknown (some "hi") []).response = .ok (unknownToolText "foo") ∧
      (chat envUnknown (some "hi") []).secondCallMade = false ∧
      ∃ pre suf, unknownToolText "foo" = pre ++ "foo" ++ suf :=
  chat_unknown_tool envUnknown "hi" [] ⟨[⟨some ⟨some [⟨none, some ⟨"foo", []⟩⟩]⟩⟩]⟩
    ⟨none, some ⟨"foo", []⟩⟩ ⟨"foo", []⟩ (by decide) rfl rfl rfl (by decide)

/-- C3 (amended): when the first content part of the model's first reply
carries a non-empty text string (and no function call), `chat` returns that
first part's text — not the concatenation of all text parts — and appends it
as the model turn. -/
theorem chat_direct_text (env : Env) (m : String) (log : List Turn) (reply : Reply)
    (p : RPart) (s : String)
    (hm : m ≠ "") (h1 : env.firstCall = .ok reply) (hp : firstPartOf reply = some p)
    (hfc : p.functionCall = none) (ht : p.text = some s) (hs : s ≠ "") :
    (chat env (some m) log).response = .ok s ∧
      (chat env (some m) log).log = log ++ [Turn.user m, Turn.modelText s] := by
  obtain ⟨rest, hparts⟩ : ∃ rest, partsOf reply = p :: rest := by
    cases hq : partsOf reply with
    | nil => rw [firstPartOf, hq] at hp; cases hp
    | cons q qs =>
      rw [firstPartOf, hq] at hp
      simp only [List.head?_cons, Option.some.injEq] at hp
      exact ⟨qs, by rw [hp]⟩
  constructor <;> simp [chat, hm, h1, hp, hfc, hparts, directText, ht, hs]

/-- Witness for `chat_direct_text`: a single-part text reply `"a"` coming
with a second (ignored) part, as in `envTwoTexts`. -/
theorem chat_direct_text_witness :
    (chat envTwoTexts (some "hi") []).response = .ok "a" ∧
      (chat envTwoTexts (some "hi") []).log = [] ++ [Turn.user "hi", Turn.modelText "a"] :=
  chat_direct_text envTwoTexts "hi" []
    ⟨[⟨some ⟨some [⟨some "a", none⟩, ⟨some "b", none⟩]⟩⟩]⟩ ⟨some "a", none⟩ "a"
    (by decide) rfl rfl rfl rfl (by decide)

/-- Counterexample to C3 as stated: with first-reply parts
`[text "a", text "b"]` the concatenation of all text parts is `"ab"`, but the
chat operation returns (and logs) only `"a"`, the first part's text. -/
theorem chat_direct_text_cx :
    (chat envTwoTexts (some "hi") []).response = .ok "a" ∧
      concatParts [⟨some "a", none⟩, ⟨some "b", none⟩] = "ab" ∧
      ("a" : String) ≠ "ab" :=
  ⟨rfl, rfl, by decide⟩

/-- C1 (amended): when the first reply is a function call for a registered
tool, the tool invocation returns normally and the second model call
succeeds, exactly four turns are appended — user, model tool-call,
tool-result, final model text — and the returned text is the concatenation of
the second reply's text parts, or the fixed apology when that concatenation
is empty. -/
theorem chat_tool_roundtrip (env : Env) (m : String) (log : List Turn) (reply r2 : Reply)
    (p : RPart) (fc : FunctionCall) (out : JVal)
    (hm : m ≠ "") (h1 : env.firstCall = .ok reply) (hp : firstPartOf reply = some p)
    (hfc : p.functionCall = some fc) (hreg : fc.name ∈ toolNames)
    (hrun : env.toolRun = .returns out) (h2 : env.secondCall = .ok r2) :
    (chat env (some m) log).log =
        log ++ [Turn.user m, Turn.modelCall fc, Turn.toolResult fc.name out,
          Turn.modelText (if secondText r2 = "" then toolApology else secondText r2)] ∧
      (chat env (some m) log).response =
        .ok (if secondText r2 = "" then toolApology else secondText r2) := by
  constructor <;> simp [chat, hm, h1, hp, hfc, hreg, hrun, h2]

/-- Witness for `chat_tool_roundtrip`: registered tool
`get_answers_from_pdf`, second reply text `"done"`. -/
theorem chat_tool_roundtrip_witness :
    (chat envTool (some "hi") []).log =
        [] ++ [Turn.user "hi", Turn.modelCall ⟨"get_answers_from_pdf", []⟩,
          Turn.toolResult "get_answers_from_pdf" .null,
          Turn.modelText (if secondText ⟨[⟨some ⟨some [⟨some "done", none⟩]⟩⟩]⟩ = ""
            then toolApology else secondText ⟨[⟨some ⟨some [⟨some "done", none⟩]⟩⟩]⟩)] ∧
      (chat envTool (some "hi") []).response =
        .ok (if secondText ⟨[⟨some ⟨some [⟨some "done", none⟩]⟩⟩]⟩ = ""
          then toolApology else secondText ⟨[⟨some ⟨some [⟨some "done", none⟩]⟩⟩]⟩) :=
  chat_tool_roundtrip envTool "hi" [] ⟨[⟨some ⟨some [⟨none, some ⟨"get_answers_from_pdf", []⟩⟩]⟩⟩]⟩
    ⟨[⟨some ⟨some [⟨some "done", none⟩]⟩⟩]⟩ ⟨none, some ⟨"get_answers_from_pdf", []⟩⟩
    ⟨"get_answers_from_pdf", []⟩ .null (by decide) rfl rfl rfl (by decide) rfl rfl

/-- Counterexample to C1 as stated: when the second reply carries no text
part its concatenation is empty, yet the returned text is the fixed apology,
not that (empty) concatenation. -/
theorem chat_tool_roundtrip_cx :
    secondText ⟨[⟨some ⟨some [⟨none, none⟩]⟩⟩]⟩ = "" ∧
      (chat envToolNoText (some "hi") []).response = .ok toolApology ∧
      toolApology ≠ "" :=
  ⟨rfl, rfl, by decide⟩

/-- C9 (amended): every 500-status failure of the chat operation carries one
of the three fixed category messages (transport, decode, internal), and the
three messages are pairwise distinct — the categories are distinguished by
message, not by status. -/
theorem chat_failure_taxonomy (env : Env) (message : Option String) (log : List Turn)
    (msg : String) (status : Nat)
    (h : (chat env message log).response = .err msg status) (h500 : status = 500) :
    (msg = transportFailureMessage ∨ msg = decodeFailureMessage ∨
        msg = internalFailureMessage) ∧
      transportFailureMessage ≠ decodeFailureMessage ∧
      transportFailureMessage ≠ internalFailureMessage ∧
      decodeFailureMessage ≠ internalFailureMessage := by
  subst h500
  refine ⟨?_, by decide, by decide, by decide⟩
  obtain ⟨f, s, t⟩ := env
  cases message with
  | none => simp [chat] at h
  | some m =>
    by_cases hm : m = ""
    · simp [chat, hm] at h
    · cases f with
      | transportError => simp [chat, hm] at h; exact Or.inl h.symm
      | decodeError => simp [chat, hm] at h; exact Or.inr (Or.inl h.symm)
      | ok reply =>
        cases hp : firstPartOf reply with
        | none => simp [chat, hm, hp] at h
        | some p =>
          cases hfc : p.functionCall with
          | none => simp [chat, hm, hp, hfc] at h
          | some fc =>
            by_cases hreg : fc.name ∈ toolNames
            · cases t with
              | raises =>
                simp [chat, hm, hp, hfc, hreg] at h
                exact Or.inr (Or.inr h.symm)
              | returns out =>
                cases s with
                | transportError =>
                  simp [chat, hm, hp, hfc, hreg] at h
                  exact Or.inl h.symm
                | decodeError =>
                  simp [chat, hm, hp, hfc, hreg] at h
                  exact Or.inr (Or.inl h.symm)
                | ok r2 => simp [chat, hm, hp, hfc, hreg] at h
            · simp [chat, hm, hp, hfc, hreg] at h

/-- Witness for `chat_failure_taxonomy` at a transport failure. -/
theorem chat_failure_taxonomy_witness :
    (transportFailureMessage = transportFailureMessage ∨
        transportFailureMessage = decodeFailureMessage ∨
        transportFailureMessage = internalFailureMessage) ∧
      transportFailureMessage ≠ decodeFailureMessage ∧
      transportFailureMessage ≠ internalFailureMessage ∧
      decodeFailureMessage ≠ internalFailureMessage :=
  chat_failure_taxonomy envTransport (some "hi") [] transportFailureMessage 500 rfl rfl

/-- Counterexample to C9 as stated: the transport-failure and decode-failure
categories are distinct but both surface with the same HTTP status 500, so
their outcomes do not differ in status. -/
theorem chat_failure_status_cx :
    (chat envTransport (some "hi") []).response = .err transportFailureMessage 500 ∧
      (chat envDecode (some "hi") []).response = .err decodeFailureMessage 500 ∧
      transportFailureMessage ≠ decodeFailureMessage :=
  ⟨rfl, rfl, by decide⟩

/-- The Python slice `l[-10:]` is `List.rtake l 10`. -/
theorem window_eq_rtake (l : List Turn) : window l = l.rtake (MAX_HISTORY_TURNS * 2) := rfl

theorem rtake_suffix (l : List Turn) (n : Nat) : l.rtake n <:+ l := by
  rw [List.rtake]; exact List.drop_suffix _ _

theorem rtake_length (l : List Turn) (n : Nat) : (l.rtake n).length = min n l.length := by
  rw [List.rtake, List.length_drop]; omega

/-- C5: with `N = MAX_HISTORY_TURNS * 2 = 10`, the history transmitted in the
first model call is exactly the `N`-element tail window of the log after the
user turn was appended; the history transmitted in a second model call is the
window of the log after the tool-call and tool-result turns were appended;
and the window of any log is a suffix holding its `min N (length)` most
recently appended turns in original order. -/
theorem chat_windowing (env : Env) (m : String) (log : List Turn) (hm : m ≠ "") :
    (chat env (some m) log).sentFirst =
        some ((log ++ [Turn.user m]).rtake (MAX_HISTORY_TURNS * 2)) ∧
      (∀ h, (chat env (some m) log).sentSecond = some h →
        ∃ fc out,
          h = (log ++ [Turn.user m, Turn.modelCall fc,
            Turn.toolResult fc.name out]).rtake (MAX_HISTORY_TURNS * 2)) ∧
      ∀ l : List Turn,
        l.rtake (MAX_HISTORY_TURNS * 2) <:+ l ∧
          (l.rtake (MAX_HISTORY_TURNS * 2)).length = min (MAX_HISTORY_TURNS * 2) l.length ∧
          l.rtake (MAX_HISTORY_TURNS * 2) = (l.reverse.take (MAX_HISTORY_TURNS * 2)).reverse := by
  refine ⟨?_, ?_, fun l => ⟨rtake_suffix l _, rtake_length l _,
    List.rtake_eq_reverse_take_reverse _ _⟩⟩ <;>
  · obtain ⟨f, s, t⟩ := env
    cases f with
    | transportError => simp [chat, hm, window_eq_rtake]
    | decodeError => simp [chat, hm, window_eq_rtake]
    | ok reply =>
      cases hp : firstPartOf reply with
      | none => simp [chat, hm, hp, window_eq_rtake]
      | some p =>
        cases hfc : p.functionCall with
        | none => simp [chat, hm, hp, hfc, window_eq_rtake]
        | some fc =>
          by_cases hreg : fc.name ∈ toolNames
          · cases t with
            | raises => simp [chat, hm, hp, hfc, hreg, window_eq_rtake]
            | returns out =>
              cases s with
              | transportError =>
                simp [chat, hm, hp, hfc, hreg, window_eq_rtake]
                try exact ⟨fc, out, rfl⟩
              | decodeError =>
                simp [chat, hm, hp, hfc, hreg, window_eq_rtake]
                try exact ⟨fc, out, rfl⟩
              | ok r2 =>
                simp [chat, hm, hp, hfc, hreg, window_eq_rtake]
                try exact ⟨fc, out, rfl⟩
          · simp [chat, hm, hp, hfc, hreg, window_eq_rtake]

/-- Witness for `chat_windowing` on a 30-turn log: the transmitted history is
the 10 most recent turns. -/
theorem chat_windowing_witness :
    ("hi" : String) ≠ "" ∧
      ((chat env0 (some "hi") (List.replicate 30 (Turn.user "x"))).sentFirst =
        some ((List.replicate 30 (Turn.user "x") ++ [Turn.user "hi"]).rtake
          (MAX_HISTORY_TURNS * 2)) ∧
      (∀ h, (chat env0 (some "hi") (List.replicate 30 (Turn.user "x"))).sentSecond = some h →
        ∃ fc out,
          h = (List.replicate 30 (Turn.user "x") ++ [Turn.user "hi", Turn.modelCall fc,
            Turn.toolResult fc.name out]).rtake (MAX_HISTORY_TURNS * 2)) ∧
      ∀ l : List Turn,
        l.rtake (MAX_HISTORY_TURNS * 2) <:+ l ∧
          (l.rtake (MAX_HISTORY_TURNS * 2)).length = min (MAX_HISTORY_TURNS * 2) l.length ∧
          l.rtake (MAX_HISTORY_TURNS * 2) = (l.reverse.take (MAX_HISTORY_TURNS * 2)).reverse) :=
  ⟨by decide, chat_windowing env0 "hi" (List.replicate 30 (Turn.user "x")) (by decide)⟩

/-! ## Retriever claims -/

/-- The pass-1 loop body updates `(best_match_key, max_match_len)` exactly
when the entry's match length strictly exceeds the running maximum. -/
theorem pass1Step_eq (q : List Char) (acc : Option (List Char) × Nat) (e : List Char × List Char) :
    pass1Step q acc e =
      if matchLen q e.1 > acc.2 then (some e.1, matchLen q e.1) else acc := by
  by_cases hA : q <:+: e.1 <;> by_cases hB : e.1 <:+: q <;>
    simp [pass1Step, matchLen, hA, hB]

/-- A match length never exceeds the query's length. -/
theorem matchLen_le_length (q k : List Char) : matchLen q k ≤ q.length := by
  unfold matchLen
  split_ifs with h1 h2
  · exact le_rfl
  · exact h2.length_le
  · exact Nat.zero_le _

/-- For a non-empty query, an entry's match length reaches the query's length
exactly when the query is contained in the key. -/
theorem matchLen_eq_length_iff (q k : List Char) (h0 : 0 < q.length) :
    matchLen q k = q.length ↔ q <:+: k := by
  unfold matchLen
  split_ifs with h1 h2
  · simp [h1]
  · constructor
    · intro hlen
      have hk : k = q := List.IsInfix.eq_of_length h2 hlen
      exact absurd (hk ▸ List.infix_rfl) h1
    · intro hq; exact absurd hq h1
  · constructor
    · intro h; omega
    · intro hq; exact absurd hq h1

/-- Once the accumulator holds the maximal match length, no later entry
replaces it. -/
theorem pass1_fold_keep (q : List Char) (l : List (List Char × List Char))
    (k : List Char) (M : Nat) (hb : ∀ e ∈ l, matchLen q e.1 ≤ M) :
    l.foldl (pass1Step q) (some k, M) = (some k, M) := by
  induction l with
  | nil => rfl
  | cons e t ih =>
    have he := hb e (List.mem_cons_self e t)
    rw [List.foldl_cons, pass1Step_eq, if_neg (by omega)]
    exact ih (fun x hx => hb x (List.mem_cons_of_mem _ hx))

/-- The pass-1 fold selects the first entry whose match length attains the
maximum `M`, whatever the (strictly smaller) starting accumulator. -/
theorem pass1_fold_reach (q : List Char) (M : Nat) :
    ∀ (l : List (List Char × List Char)) (b0 : Option (List Char)) (l0 : Nat),
      l0 < M → (∀ x ∈ l, matchLen q x.1 ≤ M) →
      ∀ e, l.find? (fun x => decide (matchLen q x.1 = M)) = some e →
      l.foldl (pass1Step q) (b0, l0) = (some e.1, M) := by
  intro l
  induction l with
  | nil => intro b0 l0 _ _ e hf; simp at hf
  | cons x t ih =>
    intro b0 l0 hl0 hb e hf
    have hbt : ∀ y ∈ t, matchLen q y.1 ≤ M := fun y hy => hb y (List.mem_cons_of_mem _ hy)
    by_cases hx : matchLen q x.1 = M
    · have hex : e = x := by simp [List.find?_cons, hx] at hf; exact hf.symm
      subst hex
      rw [List.foldl_cons, pass1Step_eq, if_pos (by omega), hx]
      exact pass1_fold_keep q t e.1 M hbt
    · have hf' : t.find? (fun y => decide (matchLen q y.1 = M)) = some e := by
        simpa [List.find?_cons, hx] using hf
      have hlt : matchLen q x.1 < M :=
        lt_of_le_of_ne (hb x (List.mem_cons_self x t)) hx
      rw [List.foldl_cons, pass1Step_eq]
      by_cases hgt : matchLen q x.1 > l0
      · rw [if_pos hgt]; exact ih _ _ hlt hbt e hf'
      · rw [if_neg hgt]; exact ih _ _ hl0 hbt e hf'

/-- The dictionary lookup of the key selected by pass 1 yields that entry's
own content: any earlier entry with the same key would have satisfied the
(key-only) selection predicate first. -/
theorem find?_key_lookup (p : List Char → Bool) (l : List (List Char × List Char))
    (e : List Char × List Char) (hf : l.find? (fun x => p x.1) = some e) :
    List.lookup e.1 l = some e.2 := by
  induction l with
  | nil => simp at hf
  | cons x t ih =>
    by_cases hx : p x.1
    · have hex : e = x := by simp [List.find?_cons, hx] at hf; exact hf.symm
      subst hex
      simp [List.lookup]
    · have hf' : t.find? (fun y => p y.1) = some e := by
        simpa [List.find?_cons, hx] using hf
      have hpe : p e.1 = true := by
        have := List.find?_some hf'
        simpa using this
      have hne : e.1 ≠ x.1 := fun hq => hx (hq ▸ hpe)
      have hbeq : (e.1 == x.1) = false := beq_eq_false_iff_ne.mpr hne
      simp [List.lookup, hbeq]
      exact ih hf'

/-- A `find?` call only depends on the pointwise values of its predicate. -/
theorem find?_congr_pred (p r : (List Char × List Char) → Bool)
    (l : List (List Char × List Char)) (h : ∀ x ∈ l, p x = r x) :
    l.find? p = l.find? r := by
  induction l with
  | nil => rfl
  | cons x t ih =>
    have hx := h x (List.mem_cons_self x t)
    rw [List.find?_cons, List.find?_cons, hx]
    cases r x
    · exact ih (fun y hy => h y (List.mem_cons_of_mem _ hy))
    · rfl

/-- An element of the list bounds the running maximum from below. -/
theorem le_foldl_max (f : (List Char × List Char) → Nat) :
    ∀ (l : List (List Char × List Char)) (a0 : Nat) (x), x ∈ l →
      f x ≤ l.foldl (fun a y => max a (f y)) a0 := by
  have hinit : ∀ (l : List (List Char × List Char)) (a : Nat),
      a ≤ l.foldl (fun b y => max b (f y)) a := by
    intro l
    induction l with
    | nil => intro a; exact le_rfl
    | cons y t ih =>
      intro a
      exact le_trans (le_max_left a (f y)) (ih _)
  intro l
  induction l with
  | nil => intro a0 x hx; cases hx
  | cons y t ih =>
    intro a0 x hx
    rcases List.mem_cons.mp hx with h | h
    · subst h
      exact le_trans (le_max_right a0 (f x)) (hinit t _)
    · exact ih _ x h

/-- Common ending of the two pass-1 theorems: once the fold is known to have
selected entry `e` whose content is non-empty, the retriever returns success
with that content. -/
theorem get_answers_of_fold (faqData : List (List Char × List Char)) (query : List Char)
    (e : List Char × List Char) (L : Nat) (hne : faqData ≠ [])
    (hfold : faqData.foldl (pass1Step (toLowerL query)) (none, 0) = (some e.1, L))
    (hlook : List.lookup e.1 faqData = some e.2) (he : e.2 ≠ []) :
    get_answers_from_pdf faqData query = ⟨"success", e.2, "FAQ PDF"⟩ := by
  rw [get_answers_from_pdf, if_neg hne]
  simp only [hfold, dictGet, hlook, Option.getD_some]
  simp [he]

/-- C6: pass 1 of `get_answers_from_pdf` selects, among all entries where one
of the normalized query and the heading contains the other, the entry with
the greatest match length (the length of the contained string), ties resolved
in favor of the first entry in iteration order; when that entry's content is
non-empty it is returned with status `success`. -/
theorem faq_pass1_longest_first (faqData : List (List Char × List Char)) (query : List Char)
    (M : Nat) (e : List Char × List Char)
    (hM : M = faqData.foldl (fun a x => max a (matchLen (toLowerL query) x.1)) 0)
    (hM0 : 0 < M)
    (hfind : faqData.find? (fun x => decide (matchLen (toLowerL query) x.1 = M)) = some e)
    (he : e.2 ≠ []) :
    get_answers_from_pdf faqData query = ⟨"success", e.2, "FAQ PDF"⟩ := by
  have hmem : e ∈ faqData := List.mem_of_find?_eq_some hfind
  have hne : faqData ≠ [] := by
    intro h; rw [h] at hmem; cases hmem
  have hb : ∀ x ∈ faqData, matchLen (toLowerL query) x.1 ≤ M := by
    intro x hx
    rw [hM]
    exact le_foldl_max (fun y => matchLen (toLowerL query) y.1) faqData 0 x hx
  have hMe : matchLen (toLowerL query) e.1 = M := by
    have := List.find?_some hfind
    simpa using this
  have hfold := pass1_fold_reach (toLowerL query) M faqData none 0 hM0 hb e hfind
  have hlook := find?_key_lookup (fun k => decide (matchLen (toLowerL query) k = M)) faqData e hfind
  exact get_answers_of_fold faqData query e M hne hfold hlook he

/-- Witness for `faq_pass1_longest_first`: the spec's own example — headings
`shipping` and `shipping information`, query `shipping information`; the
longer heading (match length 20 > 8) wins and its content is returned. -/
theorem faq_pass1_longest_first_witness :
    get_answers_from_pdf
        [("shipping".toList, "ContentA".toList),
          ("shipping information".toList, "ContentB".toList)]
        "shipping information".toList =
      ⟨"success", "ContentB".toList, "FAQ PDF"⟩ :=
  faq_pass1_longest_first
    [("shipping".toList, "ContentA".toList),
      ("shipping information".toList, "ContentB".toList)]
    "shipping information".toList 20
    ("shipping information".toList, "ContentB".toList)
    (by decide) (by decide) (by decide) (by decide)

/-- C2 (amended): for a non-empty query whose lower-cased form equals one of
the heading keys, `get_answers_from_pdf` returns `success` with the content
of the *first entry in iteration order whose heading contains the query as a
substring* — which is the exact-match entry only when no earlier heading
contains the query. -/
theorem faq_exact_heading_first_containing (faqData : List (List Char × List Char))
    (query : List Char) (e : List Char × List Char)
    (hq : toLowerL query ≠ [])
    ( _hkey : ∃ v, (toLowerL query, v) ∈ faqData)
    (hfind : faqData.find? (fun x => decide (toLowerL query <:+: x.1)) = some e)
    (he : e.2 ≠ []) :
    get_answers_from_pdf faqData query = ⟨"success", e.2, "FAQ PDF"⟩ := by
  have h0 : 0 < (toLowerL query).length := List.length_pos.mpr hq
  have hcong : faqData.find?
        (fun x => decide (matchLen (toLowerL query) x.1 = (toLowerL query).length)) =
      faqData.find? (fun x => decide (toLowerL query <:+: x.1)) :=
    find?_congr_pred _ _ faqData (fun x _ => by
      simp [matchLen_eq_length_iff (toLowerL query) x.1 h0])
  have hfind' : faqData.find?
        (fun x => decide (matchLen (toLowerL query) x.1 = (toLowerL query).length)) =
      some e := by rw [hcong]; exact hfind
  have hmem : e ∈ faqData := List.mem_of_find?_eq_some hfind
  have hne : faqData ≠ [] := by
    intro h; rw [h] at hmem; cases hmem
  have hb : ∀ x ∈ faqData, matchLen (toLowerL query) x.1 ≤ (toLowerL query).length :=
    fun x _ => matchLen_le_length _ _
  have hMe : matchLen (toLowerL query) e.1 = (toLowerL query).length := by
    have := List.find?_some hfind'
    simpa using this
  have hfold := pass1_fold_reach (toLowerL query) (toLowerL query).length faqData none 0
    h0 hb e hfind'
  have hlook := find?_key_lookup
    (fun k => decide (matchLen (toLowerL query) k = (toLowerL query).length)) faqData e hfind'
  exact get_answers_of_fold faqData query e (toLowerL query).length hne hfold hlook he

/-- Witness for `faq_exact_heading_first_containing`: query `ship`, headings
`shipping` then `ship`; the first containing heading is `shipping`, so its
content is the answer. -/
theorem faq_exact_heading_first_containing_witness :
    get_answers_from_pdf [("shipping".toList, "B".toList), ("ship".toList, "A".toList)]
        "ship".toList =
      ⟨"success", "B".toList, "FAQ PDF"⟩ :=
  faq_exact_heading_first_containing
    [("shipping".toList, "B".toList), ("ship".toList, "A".toList)] "ship".toList
    ("shipping".toList, "B".toList)
    (by decide) ⟨"A".toList, by decide⟩ (by decide) (by decide)

/-- Counterexample to C2 as stated: the query `ship` is exactly equal to the
heading `ship`, but with the heading `shipping` iterated first the retriever
returns `shipping`'s content `B`, not the exact heading's content `A`. -/
theorem faq_exact_heading_cx :
    get_answers_from_pdf [("shipping".toList, "B".toList), ("ship".toList, "A".toList)]
        "ship".toList =
      ⟨"success", "B".toList, "FAQ PDF"⟩ ∧
      "B".toList ≠ "A".toList := by
  exact ⟨by decide, by decide⟩

/-! ## Sectionizer claims -/

/-- Looking up the key just assigned by a dict assignment yields the assigned
value. -/
theorem lookup_dictInsert_self (d : List (List Char × List Char)) (k v : List Char) :
    List.lookup k (dictInsert d k v) = some v := by
  induction d with
  | nil => simp [dictInsert, List.lookup]
  | cons e rest ih =>
    rw [dictInsert]
    by_cases he : e.1 = k
    · rw [if_pos he]; simp [List.lookup]
    · rw [if_neg he]
      have hbeq : (k == e.1) = false := beq_eq_false_iff_ne.mpr (fun h => he h.symm)
      simp [List.lookup, hbeq, ih]

/-- A dict assignment to a different key does not change a lookup. -/
theorem lookup_dictInsert_ne (d : List (List Char × List Char)) (k v k' : List Char)
    (hne : k' ≠ k) : List.lookup k' (dictInsert d k v) = List.lookup k' d := by
  induction d with
  | nil =>
    have hbeq : (k' == k) = false := beq_eq_false_iff_ne.mpr hne
    simp [dictInsert, List.lookup, hbeq]
  | cons e rest ih =>
    rw [dictInsert]
    by_cases he : e.1 = k
    · rw [if_pos he]
      have hbeq : (k' == k) = false := beq_eq_false_iff_ne.mpr hne
      have hbeq' : (k' == e.1) = false := by rw [he]; exact hbeq
      simp [List.lookup, hbeq, hbeq']
    · rw [if_neg he]
      cases hcmp : (k' == e.1) <;> simp [List.lookup, hcmp, ih]

/-- Deleting a different key from the dictionary does not change a lookup. -/
theorem lookup_dictDelete_ne (d : List (List Char × List Char)) (k k' : List Char)
    (hne : k ≠ k') : List.lookup k (dictDelete d k') = List.lookup k d := by
  induction d with
  | nil => rfl
  | cons e rest ih =>
    rw [dictDelete, List.filter_cons]
    by_cases he : e.1 = k'
    · have : decide (e.1 ≠ k') = false := by simp [he]
      rw [this]
      have hbeq : (k == e.1) = false := beq_eq_false_iff_ne.mpr (by rw [he]; exact hne)
      simp [List.lookup, hbeq]
      simpa [dictDelete] using ih
    · have : decide (e.1 ≠ k') = true := by simp [he]
      rw [this]
      cases hcmp : (k == e.1) <;> simp [List.lookup, hcmp]
      simpa [dictDelete] using ih

/-- If no heading processed as the current element of a pair (every element
but the last, which only ever serves as the `next` bound) carries key `k`,
the section-build loop leaves lookups of `k` unchanged. -/
theorem lookup_buildDict_skip (text : List Char) (k : List Char) :
    ∀ (l : List (List Char × Nat × Nat)) (acc : List (List Char × List Char)),
      (∀ p ∈ l.dropLast, p.1 ≠ k) →
      List.lookup k (buildDict text l acc) = List.lookup k acc
  | [], _, _ => rfl
  | [_], _, _ => rfl
  | x :: y :: r, acc, h => by
    have hx : x.1 ≠ k := h x (by rw [List.dropLast_cons₂]; exact List.mem_cons_self _ _)
    have h' : ∀ p ∈ (y :: r).dropLast, p.1 ≠ k := fun p hp =>
      h p (by rw [List.dropLast_cons₂]; exact List.mem_cons_of_mem _ hp)
    rw [buildDict, lookup_buildDict_skip text k (y :: r) _ h']
    split
    · exact lookup_dictInsert_ne acc x.1 _ k (fun hq => hx hq.symm)
    · rfl

/-- The build loop can be started at any position: processing the first `n`
pairs only changes the accumulator. -/
theorem buildDict_drop (text : List Char) (l : List (List Char × Nat × Nat)) :
    ∀ (n : Nat) (acc : List (List Char × List Char)),
      ∃ acc', buildDict text l acc = buildDict text (l.drop n) acc' := by
  intro n
  induction n with
  | zero => intro acc; exact ⟨acc, rfl⟩
  | succ n ih =>
    intro acc
    obtain ⟨acc', h⟩ := ih acc
    have hdrop : l.drop (n + 1) = (l.drop n).drop 1 := by
      rw [List.drop_drop]
    cases hd : l.drop n with
    | nil =>
      refine ⟨acc', ?_⟩
      rw [h, hd, hdrop, hd]
      rfl
    | cons x rest =>
      cases rest with
      | nil =>
        refine ⟨acc', ?_⟩
        rw [h, hd, hdrop, hd]
        rfl
      | cons y r =>
        refine ⟨if x.1 ≠ [] ∧ cleanContent (slice text x.2.2 y.2.1) ≠ [] then
          dictInsert acc' x.1 (cleanContent (slice text x.2.2 y.2.1)) else acc', ?_⟩
        rw [h, hd, hdrop, hd]
        rw [buildDict]
        rfl

/-- C7 (amended): when the sectionizer recognizes heading `H1` with span
`[a,b)` followed by heading `H2` with span `[c,d)`, `b < c`, the normalized
heading and the normalized content of `[b,c)` are non-empty, the heading is
not denylisted, *and no later recognized heading normalizes to the same
string* (a later duplicate overwrites the stored content), the mapping stores
exactly the normalized text of `[b,c)` for `H1`; and an input with zero
recognized headings yields an empty mapping. -/
theorem sectionizer_content_between_headings :
    (∀ (text : List Char) (i : Nat) (h1 : List Char) (a b : Nat) (h2 : List Char) (c d : Nat),
      (findHeadings text 0)[i]? = some (h1, a, b) →
      (findHeadings text 0)[i + 1]? = some (h2, c, d) →
      b < c →
      h1 ≠ [] →
      cleanContent (slice text b c) ≠ [] →
      h1 ≠ denyA →
      h1 ≠ denyB →
      (∀ p ∈ (findHeadings text 0).drop (i + 1), p.1 ≠ h1) →
      List.lookup h1 (parse_faq_pdf_content_into_dictionary text) =
        some (cleanContent (slice text b c))) ∧
    (∀ text : List Char, findHeadings text 0 = [] →
      parse_faq_pdf_content_into_dictionary text = []) := by
  constructor
  · intro text i h1 a b h2 c d hi hj hbc hh1 hcontent hd1 hd2 hlater
    have htext : text ≠ [] := by
      intro h
      subst h
      simp [findHeadings, findHeadingsF] at hi
    have hlen : i + 1 < (findHeadings text 0).length := by
      by_contra hc
      push_neg at hc
      rw [List.getElem?_eq_none hc] at hj
      cases hj
    have hsne : findHeadings text 0 ≠ [] := by
      intro h
      rw [h] at hi
      simp at hi
    have hile : i < (findHeadings text 0).length := Nat.lt_of_succ_lt hlen
    have hparse : parse_faq_pdf_content_into_dictionary text =
        dictDelete (dictDelete (buildDict text
          (findHeadings text 0 ++ [(ENDMARK, text.length, text.length)]) []) denyA) denyB := by
      rw [parse_faq_pdf_content_into_dictionary, if_neg htext]
      simp [hsne]
    have hi2 : (findHeadings text 0 ++ [(ENDMARK, text.length, text.length)])[i]?
        = some (h1, a, b) := by
      rw [List.getElem?_append, if_pos hile]
      exact hi
    have hj2 : (findHeadings text 0 ++ [(ENDMARK, text.length, text.length)])[i + 1]?
        = some (h2, c, d) := by
      rw [List.getElem?_append, if_pos hlen]
      exact hj
    obtain ⟨hl2i, hg2i⟩ := List.getElem?_eq_some_iff.mp hi2
    obtain ⟨hl2j, hg2j⟩ := List.getElem?_eq_some_iff.mp hj2
    have hdrop1 : (findHeadings text 0 ++ [(ENDMARK, text.length, text.length)]).drop i
        = (h1, a, b) ::
          (findHeadings text 0 ++ [(ENDMARK, text.length, text.length)]).drop (i + 1) := by
      rw [List.drop_eq_getElem_cons hl2i, hg2i]
    have hdrop2 : (findHeadings text 0 ++ [(ENDMARK, text.length, text.length)]).drop (i + 1)
        = (h2, c, d) ::
          (findHeadings text 0 ++ [(ENDMARK, text.length, text.length)]).drop (i + 2) := by
      rw [List.drop_eq_getElem_cons hl2j, hg2j]
    have hcur : ∀ p ∈ ((h2, c, d) ::
        (findHeadings text 0 ++ [(ENDMARK, text.length, text.length)]).drop (i + 2)).dropLast,
        p.1 ≠ h1 := by
      rw [← hdrop2, List.drop_append_of_le_length (Nat.le_of_lt hlen), List.dropLast_concat]
      exact hlater
    obtain ⟨acc', hbd⟩ :=
      buildDict_drop text (findHeadings text 0 ++ [(ENDMARK, text.length, text.length)]) i []
    rw [hparse, lookup_dictDelete_ne _ _ _ hd2, lookup_dictDelete_ne _ _ _ hd1,
      hbd, hdrop1, hdrop2, buildDict, if_pos ⟨hh1, hcontent⟩,
      lookup_buildDict_skip text h1 _ _ hcur]
    exact lookup_dictInsert_self acc' h1 _
  · intro text hf
    by_cases ht : text = []
    · simp [parse_faq_pdf_content_into_dictionary, ht]
    · have hb : buildDict text [] [] = [] := rfl
      simp [parse_faq_pdf_content_into_dictionary, ht, hf, hb, dictDelete]

/-- Witness for `sectionizer_content_between_headings`: in `A:x.B:y.` the
heading `a` (span `[0,2)`) is followed by `b` (span `[4,6)`) and stores the
normalized text of `[2,4)`; and `hi` has no recognized heading. -/
theorem sectionizer_content_between_headings_witness :
    List.lookup "a".toList (parse_faq_pdf_content_into_dictionary "A:x.B:y.".toList) =
        some (cleanContent (slice "A:x.B:y.".toList 2 4)) ∧
      parse_faq_pdf_content_into_dictionary "hi".toList = [] :=
  ⟨sectionizer_content_between_headings.1 "A:x.B:y.".toList 0 "a".toList 0 2 "b".toList 4 6
      (by decide) (by decide) (by decide) (by decide) (by decide) (by decide) (by decide)
      (by decide),
    sectionizer_content_between_headings.2 "hi".toList (by decide)⟩

/-- Counterexample to C7 as stated: in `A:x.A:y.` the heading `a` at span
`[0,2)` is followed by a heading at span `[4,6)`, and the normalized text
between them is `x.`, yet the mapping stores `y.` for `a` — the later
duplicate heading overwrote the content. -/
theorem sectionizer_content_cx :
    (findHeadings "A:x.A:y.".toList 0)[0]? = some ("a".toList, 0, 2) ∧
      (findHeadings "A:x.A:y.".toList 0)[1]? = some ("a".toList, 4, 6) ∧
      cleanContent (slice "A:x.A:y.".toList 2 4) = "x.".toList ∧
      List.lookup "a".toList (parse_faq_pdf_content_into_dictionary "A:x.A:y.".toList) =
        some "y.".toList ∧
      "y.".toList ≠ "x.".toList := by
  decide

end App
